import Mathlib

set_option maxHeartbeats 1000000

/-!
Shallow embedding of the SMTP email verifier (`src/server/smtp-verifier.ts`).

The embedding models the pure data flow of the verifier:
the reply parser (`parseSmtpResponse`, `processResponse`), the RCPT TO
classifier (the `RCPT_TO` branch of `performSMTPHandshake`), the SMTP
handshake state machine (`performSMTPHandshake`), the MX resolver
(`getMXRecords`, `extractDomain`), the retry loop (`verifyEmail`) and the
backoff jitter (`addJitter`).  Network effects are modelled by explicit
environments: a DNS outcome function, and for each (attempt, host) pair the
list of complete SMTP replies the server produces in order (an empty list
models a connection failure or timeout, which surfaces as a rejected
session).  Wall-clock time is abstracted by a parameter `t` standing for the
elapsed-time value the code would read.
-/

namespace SmtpVerification

inductive VerificationStatus where
  | valid
  | invalid
  | unknown
  | catch_all
  | retry_later
  | blocked
  | greylisted
deriving DecidableEq, Repr

structure VerificationResult where
  email : String
  status : VerificationStatus
  smtp_code : Nat
  mx_server : String
  attempts : Nat
  is_catch_all : Bool
  is_temporary_error : Bool
  reason : String
  time_taken_ms : Nat
deriving DecidableEq, Repr

structure MXRecord where
  exchange : String
  priority : Nat
deriving DecidableEq, Repr

/-- A parsed SMTP reply: the numeric code and the joined message text. -/
structure SmtpReply where
  code : Nat
  message : String
deriving DecidableEq, Repr

/-- Characters at which the `.` of a JavaScript regular expression stops matching. -/
def isJsLineTerminator (c : Char) : Bool :=
  c = '\n' || c = '\r' || c = '\u2028' || c = '\u2029'

/-- JavaScript `String.prototype.toLowerCase`, character by character (the
addresses handled here are ASCII, where this agrees with JavaScript). -/
def jsToLowerCase (s : String) : String :=
  (s.toList.map Char.toLower).asString

/-- Helper for `buffer.split("\r\n")`: scan the characters, cutting at each
CRLF occurrence (leftmost-first, as JavaScript `split` does). `acc` holds the
current segment reversed. -/
def splitOnCRLFAux : List Char → List Char → List String
  | [], acc => [acc.reverse.asString]
  | '\r' :: '\n' :: cs, acc => acc.reverse.asString :: splitOnCRLFAux cs []
  | c :: cs, acc => splitOnCRLFAux cs (c :: acc)

/-- JavaScript `buffer.split("\r\n")`. -/
def splitOnCRLF (buffer : String) : List String :=
  splitOnCRLFAux buffer.toList []

/-- Helper for `email.split("@")`. -/
def splitOnAtSignAux : List Char → List Char → List String
  | [], acc => [acc.reverse.asString]
  | c :: cs, acc =>
      if c = '@' then acc.reverse.asString :: splitOnAtSignAux cs []
      else splitOnAtSignAux cs (c :: acc)

/-- JavaScript `email.split("@")`. -/
def splitOnAtSign (email : String) : List String :=
  splitOnAtSignAux email.toList []

/-- Match of the regular expression `^(\d{3})([ -])(.*)` against a line: three
digits, a space-or-dash separator, then the rest of the line up to a line
terminator (the `(.*)` capture). Returns the numeric code, the separator and
the captured rest. -/
def matchCodeSep (line : String) : Option (Nat × Char × String) :=
  match line.toList with
  | c1 :: c2 :: c3 :: sep :: rest =>
      if c1.isDigit && c2.isDigit && c3.isDigit && (sep == ' ' || sep == '-') then
        some ((c1.toNat - 48) * 100 + (c2.toNat - 48) * 10 + (c3.toNat - 48), sep,
          (rest.takeWhile (fun c => !isJsLineTerminator c)).asString)
      else none
  | _ => none

/-- The text portion of one reply line, as computed by the source's
`line.match(/^\d{3}[ -](.*)/)`: the capture when the line matches, the whole
line otherwise. -/
def textPortion (line : String) : String :=
  match matchCodeSep line with
  | some (_, _, rest) => rest
  | none => line

/-- `buffer.split("\r\n").filter(l => l.trim())` from the source: keep the
lines whose trimmed text is non-empty, i.e. the lines containing at least one
non-whitespace character. -/
def smtpLines (buffer : String) : List String :=
  (splitOnCRLF buffer).filter (fun l => l.toList.any (fun c => !c.isWhitespace))

/-- `parseSmtpResponse` from the source: emit a reply only when the last
non-blank line is a `DDD<space>` terminator line; its code is the reply code
and the message joins the text portions of all lines with single spaces. -/
def parseSmtpResponse (buffer : String) : Option SmtpReply :=
  match (smtpLines buffer).getLast? with
  | none => none
  | some lastLine =>
      match matchCodeSep lastLine with
      | none => none
      | some (code, sep, _) =>
          if sep = ' ' then
            some ⟨code, String.intercalate " " ((smtpLines buffer).map textPortion)⟩
          else
            none

/-- `processResponse` from the source, as a buffer transformer: when a parse
succeeds the whole buffer is cleared (`responseBuffer = ""`), otherwise the
buffer is kept and the driver waits for more data. -/
def processResponse (buffer : String) : Option SmtpReply × String :=
  match parseSmtpResponse buffer with
  | some reply => (some reply, "")
  | none => (none, buffer)

/-- Substring containment on character lists. -/
def containsSubList (needle : List Char) : List Char → Bool
  | [] => needle.isEmpty
  | c :: cs => needle.isPrefixOf (c :: cs) || containsSubList needle cs

/-- `message.toLowerCase().includes("greylist")` from the source. -/
def containsGreylist (message : String) : Bool :=
  containsSubList "greylist".toList (jsToLowerCase message).toList

/-- The RCPT TO classification chain from `performSMTPHandshake` (lines
340-385 of the source): status, is_catch_all, is_temporary_error, reason. -/
def classifyRcpt (code : Nat) (message : String) :
    VerificationStatus × Bool × Bool × String :=
  if code = 250 then (.valid, false, false, "Mailbox exists")
  else if code = 251 then (.valid, false, false, "User not local but will forward")
  else if code = 252 then (.catch_all, true, false, "Cannot verify user, but will accept message")
  else if code = 550 ∨ code = 551 ∨ code = 552 ∨ code = 553 ∨ code = 554 then
    (.invalid, false, false, "Mailbox rejected: " ++ message)
  else if code = 450 ∨ code = 451 ∨ code = 452 then
    (.retry_later, false, true, "Temporary error: " ++ message)
  else if code = 421 then (.retry_later, false, true, "Server busy: " ++ message)
  else if containsGreylist message then (.greylisted, false, true, "Greylisted: " ++ message)
  else if 500 ≤ code then (.invalid, false, false, "Permanent error: " ++ message)
  else if 400 ≤ code then (.retry_later, false, true, "Temporary error: " ++ message)
  else (.unknown, false, false, "Unknown SMTP response: " ++ toString code ++ " " ++ message)

def EHLO_CMD : String := "EHLO cleansignups.com\r\n"

def HELO_CMD : String := "HELO cleansignups.com\r\n"

def QUIT_CMD : String := "QUIT\r\n"

def mailFromCmd (fromEmail : String) : String := "MAIL FROM:<" ++ fromEmail ++ ">\r\n"

def rcptToCmd (email : String) : String := "RCPT TO:<" ++ email ++ ">\r\n"

inductive SmtpStep where
  | CONNECT
  | EHLO
  | HELO
  | MAIL_FROM
  | RCPT_TO
deriving DecidableEq, Repr

/-- `createResult` from the source. -/
def createResult (email : String) (status : VerificationStatus) (smtp_code : Nat)
    (mx_server : String) (attempts : Nat) (is_catch_all is_temporary_error : Bool)
    (reason : String) (time_taken_ms : Nat) : VerificationResult :=
  ⟨email, status, smtp_code, mx_server, attempts, is_catch_all, is_temporary_error,
    reason, time_taken_ms⟩

/-- The step dispatch of `performSMTPHandshake`, driven by the successive
complete replies the server produces.  Returns the session verdict (`none`
models a rejected promise: socket error, or timeout when the reply list is
exhausted before a verdict) together with the list of commands written to the
socket, in order. -/
def handshakeSteps (fromEmail email mxServer : String) (attemptNumber : Nat) :
    SmtpStep → List SmtpReply → Option VerificationResult × List String
  | _, [] => (none, [])
  | .CONNECT, r :: rest =>
      if r.code = 220 then
        let next := handshakeSteps fromEmail email mxServer attemptNumber .EHLO rest
        (next.1, EHLO_CMD :: next.2)
      else
        (some (createResult email .blocked r.code mxServer attemptNumber false false
          ("Server rejected connection: " ++ r.message) 0), [])
  | .EHLO, r :: rest =>
      if r.code = 250 then
        let next := handshakeSteps fromEmail email mxServer attemptNumber .MAIL_FROM rest
        (next.1, mailFromCmd fromEmail :: next.2)
      else if r.code = 500 ∨ r.code = 502 then
        let next := handshakeSteps fromEmail email mxServer attemptNumber .HELO rest
        (next.1, HELO_CMD :: next.2)
      else
        (some (createResult email .blocked r.code mxServer attemptNumber false
          (decide (400 ≤ r.code ∧ r.code < 500)) ("EHLO rejected: " ++ r.message) 0), [])
  | .HELO, r :: rest =>
      if r.code = 250 then
        let next := handshakeSteps fromEmail email mxServer attemptNumber .MAIL_FROM rest
        (next.1, mailFromCmd fromEmail :: next.2)
      else
        (some (createResult email .blocked r.code mxServer attemptNumber false
          (decide (400 ≤ r.code ∧ r.code < 500)) ("HELO rejected: " ++ r.message) 0), [])
  | .MAIL_FROM, r :: rest =>
      if r.code = 250 then
        let next := handshakeSteps fromEmail email mxServer attemptNumber .RCPT_TO rest
        (next.1, rcptToCmd email :: next.2)
      else
        (some (createResult email .blocked r.code mxServer attemptNumber false
          (decide (400 ≤ r.code ∧ r.code < 500)) ("MAIL FROM rejected: " ++ r.message) 0), [])
  | .RCPT_TO, r :: _ =>
      match classifyRcpt r.code r.message with
      | (status, isCatchAll, isTemporary, reason) =>
          (some (createResult email status r.code mxServer attemptNumber isCatchAll
            isTemporary reason 0), [QUIT_CMD])

/-- `performSMTPHandshake` from the source: one session, starting in state
CONNECT. -/
def performSMTPHandshake (fromEmail email mxServer : String) (attemptNumber : Nat)
    (replies : List SmtpReply) : Option VerificationResult × List String :=
  handshakeSteps fromEmail email mxServer attemptNumber .CONNECT replies

/-- `attemptSMTPVerification` from the source: try each MX host in order;
the first session that resolves a verdict wins (with `time_taken_ms` set to
the elapsed time); a session failure moves on to the next host; if every host
fails the attempt throws, modelled as `none`. -/
def attemptSMTPVerification (fromEmail email : String) (attemptNumber : Nat)
    (sess : Nat → List SmtpReply) (t : Nat) :
    List MXRecord → Nat → Option VerificationResult
  | [], _ => none
  | mx :: rest, i =>
      match (performSMTPHandshake fromEmail email mx.exchange attemptNumber (sess i)).1 with
      | some result => some { result with time_taken_ms := t }
      | none => attemptSMTPVerification fromEmail email attemptNumber sess t rest (i + 1)

def MAX_RETRIES : Nat := 3

/-- `mxRecords[0]?.exchange || dflt` from the source (JavaScript `||` also
replaces an empty exchange string, which is falsy). -/
def firstExchangeOr (mxRecords : List MXRecord) (dflt : String) : String :=
  match mxRecords with
  | [] => dflt
  | mx :: _ => if mx.exchange = "" then dflt else mx.exchange

/-- The retry loop of `verifyEmail` (lines 76-143 of the source), with `fuel`
the number of remaining loop iterations and `attempt` the 0-based loop index.
A definitive verdict (valid, invalid, catch_all) returns immediately; any
other verdict is stored as `lastResult`; a failed attempt stores the
synthetic unknown/temporary result from the catch block; when fuel runs out
the stored `lastResult` is returned with `attempts := MAX_RETRIES` and the
elapsed time, with a final fallback when no result was ever stored. -/
def verifyLoop (fromEmail email : String) (mxRecords : List MXRecord)
    (sessions : Nat → Nat → List SmtpReply) (t : Nat) :
    Nat → Nat → Option VerificationResult → VerificationResult
  | 0, _, lastResult =>
      (match lastResult with
       | some r => { r with attempts := MAX_RETRIES, time_taken_ms := t }
       | none => createResult email .unknown 0 (firstExchangeOr mxRecords "unknown")
           MAX_RETRIES false true "Verification failed after all retries" t)
  | fuel + 1, attempt, _ =>
      match attemptSMTPVerification fromEmail email (attempt + 1) (sessions attempt) t
          mxRecords 0 with
      | some result =>
          if result.status = .valid ∨ result.status = .invalid ∨ result.status = .catch_all then
            result
          else
            verifyLoop fromEmail email mxRecords sessions t fuel (attempt + 1) (some result)
      | none =>
          verifyLoop fromEmail email mxRecords sessions t fuel (attempt + 1)
            (some (createResult email .unknown 0 (firstExchangeOr mxRecords "error")
              (attempt + 1) false true "All MX servers failed to respond" t))

/-- Insert a record into an already-sorted list, after every record of lower
or equal priority (preserving the relative order of equal priorities). -/
def insertByPriority (x : MXRecord) : List MXRecord → List MXRecord
  | [] => [x]
  | y :: ys => if y.priority ≤ x.priority then y :: insertByPriority x ys else x :: y :: ys

/-- `records.sort((a, b) => a.priority - b.priority)` from the source: a
stable ascending sort by priority (JavaScript `Array.prototype.sort` is
stable), realized as left-to-right stable insertion. -/
def sortByPriority (records : List MXRecord) : List MXRecord :=
  records.foldl (fun acc x => insertByPriority x acc) []

/-- `getMXRecords` from the source: a DNS failure becomes the empty list, a
success is sorted ascending by priority. -/
def getMXRecords (dnsOutcome : Except String (List MXRecord)) : List MXRecord :=
  match dnsOutcome with
  | .error _ => []
  | .ok records => sortByPriority records

/-- `extractDomain` from the source: split on `@`; exactly two parts are
required (`none` models the thrown `Error("Invalid email format")`); the
second part is lowercased. -/
def extractDomain (email : String) : Option String :=
  let parts := splitOnAtSign email
  if parts.length = 2 then some (jsToLowerCase (parts.getD 1 "")) else none

/-- `verifyEmail` from the source.  `dns` is the environment's outcome of
`resolveMx` per queried domain; `sessions attempt host` is the reply script
the server at MX index `host` produces during loop iteration `attempt`. -/
def verifyEmail (fromEmail email : String)
    (dns : String → Except String (List MXRecord))
    (sessions : Nat → Nat → List SmtpReply) (t : Nat) : VerificationResult :=
  match extractDomain email with
  | none => createResult email .unknown 0 "error" 1 false false "Invalid email format" t
  | some domain =>
      let mxRecords := getMXRecords (dns domain)
      if mxRecords.length = 0 then
        createResult email .invalid 550 "No MX" 1 false false "No MX records found for domain" t
      else
        verifyLoop fromEmail email mxRecords sessions t MAX_RETRIES 0 none

/-- `RETRY_DELAYS` from the source, as exact rationals. -/
def RETRY_DELAYS : List ℚ := [1000, 3000, 10000]

/-- `addJitter` from the source: `delay + (u * (delay*0.3) * 2 - delay*0.3)`
with `u` the draw of `Math.random()`. -/
def addJitter (delay : ℚ) (u : ℚ) : ℚ :=
  let jitter := delay * (3 / 10)
  delay + (u * jitter * 2 - jitter)

/-- JavaScript `Math.round`: round half up. -/
def jsRound (x : ℚ) : ℤ := ⌊x + 1 / 2⌋

/-- Lines 79-83 of the source: the sleep performed before loop iteration
`attempt` (0-based), `none` when no sleep happens. -/
def retrySleep (attempt : Nat) (u : ℚ) : Option ℤ :=
  if 0 < attempt then some (jsRound (addJitter (RETRY_DELAYS.getD (attempt - 1) 0) u))
  else none

/-! Spec-side definitions, written from the specification's words, used to
compare the code against the spec in the claims below. -/

/-- The classification table of spec §4.5: rows in top-to-bottom order, each a
condition on (code, message) and the promised (status, is_catch_all,
is_temporary_error). -/
def specRows : List ((Nat → String → Bool) × (VerificationStatus × Bool × Bool)) :=
  [ (fun code _ => code == 250 || code == 251, (.valid, false, false)),
    (fun code _ => code == 252, (.catch_all, true, false)),
    (fun code _ => code == 550 || code == 551 || code == 552 || code == 553 || code == 554,
      (.invalid, false, false)),
    (fun code _ => code == 450 || code == 451 || code == 452, (.retry_later, false, true)),
    (fun code _ => code == 421, (.retry_later, false, true)),
    (fun _ message => containsGreylist message, (.greylisted, false, true)),
    (fun code _ => decide (500 ≤ code), (.invalid, false, false)),
    (fun code _ => decide (400 ≤ code), (.retry_later, false, true)) ]

/-- First-match evaluation of a classification table, with the spec's final
"any remaining code gives unknown" default. -/
def firstMatchingRow (code : Nat) (message : String) :
    List ((Nat → String → Bool) × (VerificationStatus × Bool × Bool)) →
      VerificationStatus × Bool × Bool
  | [] => (.unknown, false, false)
  | row :: rest => if row.1 code message then row.2 else firstMatchingRow code message rest

/-- Spec §4.5 classification: the first matching row of the table, evaluated
top-to-bottom. -/
def specClassify (code : Nat) (message : String) : VerificationStatus × Bool × Bool :=
  firstMatchingRow code message specRows

/-- Spec §4.1: a terminating reply line, matching `^(\d{3})\s` — three digits
then a space. -/
def isTerminatorLine (line : String) : Bool :=
  match line.toList with
  | c1 :: c2 :: c3 :: c4 :: _ => c1.isDigit && c2.isDigit && c3.isDigit && c4 == ' '
  | _ => false

/-- Spec §4.1: a continuation reply line `DDD-…`. -/
def isContinuationLine (line : String) : Bool :=
  match line.toList with
  | c1 :: c2 :: c3 :: c4 :: _ => c1.isDigit && c2.isDigit && c3.isDigit && c4 == '-'
  | _ => false

/-- The numeric value of the three-digit prefix of a reply line. -/
def lineCodeOf (line : String) : Nat :=
  match line.toList with
  | c1 :: c2 :: c3 :: _ => (c1.toNat - 48) * 100 + (c2.toNat - 48) * 10 + (c3.toNat - 48)
  | _ => 0

/-- The text portion of a reply line after its three-digit code and `-`/` `
separator (the `(.*)` capture of the spec's pattern). -/
def afterSeparator (line : String) : String :=
  match line.toList with
  | _ :: _ :: _ :: _ :: rest => (rest.takeWhile (fun c => !isJsLineTerminator c)).asString
  | _ => ""

/-- A definitive verdict in the sense of spec §4.4: valid, invalid or
catch_all; never retried. -/
def definitiveStatus (s : VerificationStatus) : Prop :=
  s = .valid ∨ s = .invalid ∨ s = .catch_all

instance (s : VerificationStatus) : Decidable (definitiveStatus s) := by
  unfold definitiveStatus; infer_instance

/-- C1 helper: the (status, is_catch_all, is_temporary_error) projection of the
classifier's output. -/
def classProj (out : VerificationStatus × Bool × Bool × String) :
    VerificationStatus × Bool × Bool :=
  (out.1, out.2.1, out.2.2.1)

/-- **C1.** For every RCPT TO reply (code, message), the classification computed
by the code (the RCPT_TO branch of `performSMTPHandshake`) is exactly the first
matching row of the spec §4.5 table evaluated top-to-bottom: 250/251 ↦ valid;
252 ↦ catch_all with is_catch_all; {550,551,552,553,554} ↦ invalid;
{450,451,452} ↦ retry_later with is_temporary_error; 421 ↦ retry_later with
is_temporary_error; otherwise a message containing "greylist"
(case-insensitively) ↦ greylisted with is_temporary_error; otherwise
code ≥ 500 ↦ invalid; otherwise code ≥ 400 ↦ retry_later with
is_temporary_error; any remaining code ↦ unknown.  The greylist text check is
reached only when the code is in none of the enumerated numeric sets, because
the earlier rows match first. -/
theorem classifyRcpt_matches_spec_table (code : Nat) (message : String) :
    classProj (classifyRcpt code message) = specClassify code message := by
  simp only [classifyRcpt, specClassify, specRows, firstMatchingRow, classProj,
    Bool.or_eq_true, beq_iff_eq, decide_eq_true_eq]
  split_ifs <;> first | rfl | omega

/-- Case analysis relating the source's line matcher `matchCodeSep` to the
spec-side line shapes: a line either fails the `^(\d{3})([ -])` pattern, or is
a terminator line (space separator), or a continuation line (dash separator);
in the two matching cases the extracted code and text portion agree with
`lineCodeOf` and `afterSeparator`. -/
theorem matchCodeSep_cases (l : String) :
    (matchCodeSep l = none ∧ isTerminatorLine l = false ∧ isContinuationLine l = false) ∨
    (matchCodeSep l = some (lineCodeOf l, ' ', afterSeparator l) ∧
      isTerminatorLine l = true ∧ isContinuationLine l = false) ∨
    (matchCodeSep l = some (lineCodeOf l, '-', afterSeparator l) ∧
      isTerminatorLine l = false ∧ isContinuationLine l = true) := by
  unfold matchCodeSep isTerminatorLine isContinuationLine lineCodeOf afterSeparator
  rcases hl : l.toList with _ | ⟨c1, _ | ⟨c2, _ | ⟨c3, _ | ⟨c4, rest⟩⟩⟩⟩ <;>
      simp only [hl] <;> try (left; exact ⟨trivial, trivial, trivial⟩)
  by_cases hd : (c1.isDigit && c2.isDigit && c3.isDigit) = true
  · by_cases hsp : c4 = ' '
    · subst hsp
      right; left
      simp [hd]
    · by_cases hdash : c4 = '-'
      · subst hdash
        right; right
        simp [hd]
      · left
        simp [hd, hsp, hdash]
  · left
    simp [hd]

/-- A line that is a terminator or continuation line has its source-computed
text portion equal to the spec's after-separator portion. -/
theorem textPortion_eq_afterSeparator (l : String)
    (h : isTerminatorLine l = true ∨ isContinuationLine l = true) :
    textPortion l = afterSeparator l := by
  rcases matchCodeSep_cases l with ⟨hm, ht, hc⟩ | ⟨hm, ht, hc⟩ | ⟨hm, ht, hc⟩
  · rcases h with h | h <;> simp_all
  · simp [textPortion, hm]
  · simp [textPortion, hm]

/-- **C3.** For every sequence of byte chunks fed to the reply parser (the
parser only ever examines the accumulated buffer, the concatenation of the
chunks): a reply is emitted exactly when the buffer's last non-blank line is a
three-digits-then-space terminator line; a last line with three digits then a
dash makes the parser wait (no emission); on emission the reply's code is the
three-digit prefix of the terminating line, and when every buffered line is a
well-formed reply line the message is the text portions after the separators
joined by single spaces.  No partial reply is ever emitted. -/
theorem parseSmtpResponse_spec (chunks : List String) (buffer : String)
    (_hbuf : buffer = String.join chunks) :
    ((parseSmtpResponse buffer).isSome = true ↔
      (∃ lastLine, (smtpLines buffer).getLast? = some lastLine ∧
        isTerminatorLine lastLine = true))
    ∧ (∀ lastLine, (smtpLines buffer).getLast? = some lastLine →
        isContinuationLine lastLine = true → parseSmtpResponse buffer = none)
    ∧ (∀ reply, parseSmtpResponse buffer = some reply →
        (∃ lastLine, (smtpLines buffer).getLast? = some lastLine ∧
          isTerminatorLine lastLine = true ∧ reply.code = lineCodeOf lastLine) ∧
        ((∀ l ∈ smtpLines buffer, isTerminatorLine l = true ∨ isContinuationLine l = true) →
          reply.message = String.intercalate " " ((smtpLines buffer).map afterSeparator))) := by
  cases hLast : (smtpLines buffer).getLast? with
  | none =>
      have hp : parseSmtpResponse buffer = none := by simp [parseSmtpResponse, hLast]
      refine ⟨?_, ?_, ?_⟩
      · rw [hp]; simp
      · intro lastLine h hcont; exact hp
      · intro reply h; rw [hp] at h; cases h
  | some lastLine =>
      rcases matchCodeSep_cases lastLine with ⟨hm, ht, hc⟩ | ⟨hm, ht, hc⟩ | ⟨hm, ht, hc⟩
      · have hp : parseSmtpResponse buffer = none := by simp [parseSmtpResponse, hLast, hm]
        refine ⟨?_, ?_, ?_⟩
        · rw [hp]
          constructor
          · intro h; cases h
          · rintro ⟨l, hl, hterm⟩
            injection hl with hl
            subst hl
            rw [hterm] at ht
            cases ht
        · intro l hl hcont; exact hp
        · intro reply h; rw [hp] at h; cases h
      · have hp : parseSmtpResponse buffer =
            some ⟨lineCodeOf lastLine,
              String.intercalate " " ((smtpLines buffer).map textPortion)⟩ := by
          simp [parseSmtpResponse, hLast, hm]
        refine ⟨?_, ?_, ?_⟩
        · rw [hp]
          exact ⟨fun _ => ⟨lastLine, rfl, ht⟩, fun _ => rfl⟩
        · intro l hl hcont
          injection hl with hl
          subst hl
          rw [hcont] at hc
          cases hc
        · intro reply h
          rw [hp] at h
          injection h with h
          subst h
          refine ⟨⟨lastLine, rfl, ht, rfl⟩, ?_⟩
          intro hall
          show String.intercalate " " ((smtpLines buffer).map textPortion) =
            String.intercalate " " ((smtpLines buffer).map afterSeparator)
          congr 1
          exact List.map_congr_left fun l hl => textPortion_eq_afterSeparator l (hall l hl)
      · have hp : parseSmtpResponse buffer = none := by
          simp [parseSmtpResponse, hLast, hm]
        refine ⟨?_, ?_, ?_⟩
        · rw [hp]
          constructor
          · intro h; cases h
          · rintro ⟨l, hl, hterm⟩
            injection hl with hl
            subst hl
            rw [hterm] at ht
            cases ht
        · intro l hl hcont; exact hp
        · intro reply h; rw [hp] at h; cases h

/-- C3 witness: a multi-line reply `250-a CRLF 250 b CRLF` parses to one
complete reply with code 250 and message "a b"; a dangling continuation line
parses to nothing. -/
theorem parseSmtpResponse_spec_witness :
    parseSmtpResponse "250-a\r\n250 b\r\n" = some ⟨250, "a b"⟩ ∧
    parseSmtpResponse "220-x\r\n" = none :=
  ⟨by decide,
    (parseSmtpResponse_spec ["220-x\r\n"] "220-x\r\n" rfl).2.1 "220-x" (by decide) (by decide)⟩

/-- **C4 counterexample.** The claim says that when a complete reply plus
excess bytes sit in the buffer, the parser yields that reply and keeps the
excess buffered.  On the buffer `"250 ok\r\n220 hi\r\n"` (a complete
`250 ok` reply followed by excess bytes `220 hi\r\n`) the code instead merges
everything into one reply with the code of the *last* line and clears the
whole buffer. -/
theorem processResponse_discards_excess :
    processResponse "250 ok\r\n220 hi\r\n" ≠ (some ⟨250, "ok"⟩, "220 hi\r\n") ∧
    (processResponse "250 ok\r\n220 hi\r\n").1 = some ⟨220, "ok hi"⟩ ∧
    (processResponse "250 ok\r\n220 hi\r\n").2 = "" := by
  refine ⟨?_, ?_, ?_⟩ <;> decide

/-- **C4 amended.** Whenever the parser recognizes a complete reply in its
buffer (the last non-blank line is a terminator line) it yields exactly one
Reply and clears the *entire* buffer — excess bytes beyond the terminating
line are folded into that reply's message or discarded, not kept for the next
reply; when no complete reply is recognized the buffer is kept unchanged and
nothing is emitted. -/
theorem processResponse_amended (buffer : String) :
    (∀ reply, parseSmtpResponse buffer = some reply →
      processResponse buffer = (some reply, "")) ∧
    (parseSmtpResponse buffer = none → processResponse buffer = (none, buffer)) := by
  constructor
  · intro reply h; simp [processResponse, h]
  · intro h; simp [processResponse, h]

/-- C4 amended witness: one complete reply is emitted and the buffer cleared;
an incomplete buffer is kept. -/
theorem processResponse_amended_witness :
    processResponse "250 ok\r\n" = (some ⟨250, "ok"⟩, "") ∧
    processResponse "25" = (none, "25") := by
  constructor
  · exact (processResponse_amended "250 ok\r\n").1 ⟨250, "ok"⟩ (by decide)
  · exact (processResponse_amended "25").2 (by decide)

/-- The invariant carried by every result the verifier builds: the `email`
field echoes the verified address unchanged, and the status is `catch_all`
exactly when the `is_catch_all` flag is set. -/
def resultOk (email : String) (r : VerificationResult) : Prop :=
  r.email = email ∧ (r.status = .catch_all ↔ r.is_catch_all = true)

/-- The RCPT TO classifier sets `is_catch_all` exactly on the `catch_all`
status. -/
theorem classifyRcpt_catchAll (code : Nat) (message : String) :
    ((classifyRcpt code message).1 = .catch_all ↔
      (classifyRcpt code message).2.1 = true) := by
  unfold classifyRcpt
  split_ifs <;> simp

/-- Every verdict a session resolves satisfies `resultOk`. -/
theorem handshakeSteps_ok (f e mx : String) (a : Nat) :
    ∀ (rs : List SmtpReply) (st : SmtpStep) (r : VerificationResult),
      (handshakeSteps f e mx a st rs).1 = some r → resultOk e r := by
  intro rs
  induction rs with
  | nil => intro st r h; simp [handshakeSteps] at h
  | cons hd tl ih =>
      intro st r h
      cases st
      case CONNECT =>
        by_cases h220 : hd.code = 220
        · simp only [handshakeSteps, h220, if_true] at h
          exact ih .EHLO r h
        · simp only [handshakeSteps, h220, if_false, Option.some.injEq] at h
          subst h
          exact ⟨rfl, by simp [createResult]⟩
      case EHLO =>
        by_cases h250 : hd.code = 250
        · simp only [handshakeSteps, h250, if_true] at h
          exact ih .MAIL_FROM r h
        · by_cases h50x : hd.code = 500 ∨ hd.code = 502
          · simp only [handshakeSteps, h250, if_false, h50x, if_true] at h
            exact ih .HELO r h
          · simp only [handshakeSteps, h250, if_false, h50x, Option.some.injEq] at h
            subst h
            exact ⟨rfl, by simp [createResult]⟩
      case HELO =>
        by_cases h250 : hd.code = 250
        · simp only [handshakeSteps, h250, if_true] at h
          exact ih .MAIL_FROM r h
        · simp only [handshakeSteps, h250, if_false, Option.some.injEq] at h
          subst h
          exact ⟨rfl, by simp [createResult]⟩
      case MAIL_FROM =>
        by_cases h250 : hd.code = 250
        · simp only [handshakeSteps, h250, if_true] at h
          exact ih .RCPT_TO r h
        · simp only [handshakeSteps, h250, if_false, Option.some.injEq] at h
          subst h
          exact ⟨rfl, by simp [createResult]⟩
      case RCPT_TO =>
        rcases hcr : classifyRcpt hd.code hd.message with ⟨s, ica, ite, reason⟩
        simp only [handshakeSteps, hcr, Option.some.injEq] at h
        subst h
        have hcc := classifyRcpt_catchAll hd.code hd.message
        rw [hcr] at hcc
        exact ⟨rfl, hcc⟩

/-- Every result an attempt produces satisfies `resultOk`. -/
theorem attemptSMTPVerification_ok (f e : String) (a : Nat)
    (sess : Nat → List SmtpReply) (t : Nat) :
    ∀ (mxs : List MXRecord) (i : Nat) (r : VerificationResult),
      attemptSMTPVerification f e a sess t mxs i = some r → resultOk e r := by
  intro mxs
  induction mxs with
  | nil => intro i r h; simp [attemptSMTPVerification] at h
  | cons mx rest ih =>
      intro i r h
      cases hh : (performSMTPHandshake f e mx.exchange a (sess i)).1 with
      | some r0 =>
          simp only [attemptSMTPVerification, hh, Option.some.injEq] at h
          subst h
          have hr0 := handshakeSteps_ok f e mx.exchange a (sess i) .CONNECT r0 hh
          exact ⟨hr0.1, hr0.2⟩
      | none =>
          simp only [attemptSMTPVerification, hh] at h
          exact ih (i + 1) r h

/-- Every result the retry loop returns satisfies `resultOk`, provided the
stored `lastResult` (if any) does. -/
theorem verifyLoop_ok (f e : String) (mxs : List MXRecord)
    (sessions : Nat → Nat → List SmtpReply) (t : Nat) :
    ∀ (fuel attempt : Nat) (last : Option VerificationResult),
      (∀ r, last = some r → resultOk e r) →
      resultOk e (verifyLoop f e mxs sessions t fuel attempt last) := by
  intro fuel
  induction fuel with
  | zero =>
      intro attempt last hlast
      cases last with
      | none => exact ⟨rfl, by simp [verifyLoop, createResult]⟩
      | some r =>
          have hr := hlast r rfl
          exact ⟨hr.1, hr.2⟩
  | succ fuel ih =>
      intro attempt last hlast
      cases ho : attemptSMTPVerification f e (attempt + 1) (sessions attempt) t mxs 0 with
      | some result =>
          by_cases hdef : result.status = .valid ∨ result.status = .invalid ∨
              result.status = .catch_all
          · have hloop : verifyLoop f e mxs sessions t (fuel + 1) attempt last = result := by
              simp only [verifyLoop, ho]
              rw [if_pos hdef]
            rw [hloop]
            exact attemptSMTPVerification_ok f e (attempt + 1) (sessions attempt) t mxs 0
              result ho
          · have hloop : verifyLoop f e mxs sessions t (fuel + 1) attempt last =
                verifyLoop f e mxs sessions t fuel (attempt + 1) (some result) := by
              simp only [verifyLoop, ho]
              rw [if_neg hdef]
            rw [hloop]
            refine ih (attempt + 1) (some result) ?_
            intro r hr
            injection hr with hr
            subst hr
            exact attemptSMTPVerification_ok f e (attempt + 1) (sessions attempt) t mxs 0
              result ho
      | none =>
          have hloop : verifyLoop f e mxs sessions t (fuel + 1) attempt last =
              verifyLoop f e mxs sessions t fuel (attempt + 1)
                (some (createResult e .unknown 0 (firstExchangeOr mxs "error") (attempt + 1)
                  false true "All MX servers failed to respond" t)) := by
            simp only [verifyLoop, ho]
          rw [hloop]
          refine ih (attempt + 1) _ ?_
          intro r hr
          injection hr with hr
          subst hr
          exact ⟨rfl, by simp [createResult]⟩

/-- Every result `verifyEmail` returns satisfies `resultOk`. -/
theorem verifyEmail_ok (f e : String) (dns : String → Except String (List MXRecord))
    (sessions : Nat → Nat → List SmtpReply) (t : Nat) :
    resultOk e (verifyEmail f e dns sessions t) := by
  cases hd : extractDomain e with
  | none =>
      have : verifyEmail f e dns sessions t =
          createResult e .unknown 0 "error" 1 false false "Invalid email format" t := by
        simp only [verifyEmail, hd]
      rw [this]
      exact ⟨rfl, by simp [createResult]⟩
  | some d =>
      by_cases hmx : (getMXRecords (dns d)).length = 0
      · have : verifyEmail f e dns sessions t =
            createResult e .invalid 550 "No MX" 1 false false
              "No MX records found for domain" t := by
          simp only [verifyEmail, hd]
          rw [if_pos hmx]
        rw [this]
        exact ⟨rfl, by simp [createResult]⟩
      · have : verifyEmail f e dns sessions t =
            verifyLoop f e (getMXRecords (dns d)) sessions t MAX_RETRIES 0 none := by
          simp only [verifyEmail, hd]
          rw [if_neg hmx]
        rw [this]
        exact verifyLoop_ok f e (getMXRecords (dns d)) sessions t MAX_RETRIES 0 none
          (fun r hr => by cases hr)

/-- **C5.** Every Result returned by verify satisfies the biconditional: its
status is `catch_all` if and only if its `is_catch_all` flag is true — in
particular no valid, invalid, blocked, retry_later, greylisted or unknown
result ever carries `is_catch_all = true`. -/
theorem verifyEmail_catchAll_iff (f email : String)
    (dns : String → Except String (List MXRecord))
    (sessions : Nat → Nat → List SmtpReply) (t : Nat) :
    ((verifyEmail f email dns sessions t).status = .catch_all ↔
      (verifyEmail f email dns sessions t).is_catch_all = true) :=
  (verifyEmail_ok f email dns sessions t).2

/-- One loop iteration returns a definitive attempt verdict immediately. -/
theorem verifyLoop_exit (f e : String) (mxs : List MXRecord)
    (sessions : Nat → Nat → List SmtpReply) (t fuel attempt : Nat)
    (last : Option VerificationResult) (r : VerificationResult)
    (ho : attemptSMTPVerification f e (attempt + 1) (sessions attempt) t mxs 0 = some r)
    (hdef : definitiveStatus r.status) :
    verifyLoop f e mxs sessions t (fuel + 1) attempt last = r := by
  have hdef' : r.status = .valid ∨ r.status = .invalid ∨ r.status = .catch_all := hdef
  simp only [verifyLoop, ho]
  rw [if_pos hdef']

/-- One loop iteration stores a non-definitive attempt verdict as
`lastResult` and moves to the next attempt. -/
theorem verifyLoop_cont (f e : String) (mxs : List MXRecord)
    (sessions : Nat → Nat → List SmtpReply) (t fuel attempt : Nat)
    (last : Option VerificationResult) (r : VerificationResult)
    (ho : attemptSMTPVerification f e (attempt + 1) (sessions attempt) t mxs 0 = some r)
    (hndef : ¬ definitiveStatus r.status) :
    verifyLoop f e mxs sessions t (fuel + 1) attempt last =
      verifyLoop f e mxs sessions t fuel (attempt + 1) (some r) := by
  have hndef' : ¬ (r.status = .valid ∨ r.status = .invalid ∨ r.status = .catch_all) := hndef
  simp only [verifyLoop, ho]
  rw [if_neg hndef']

/-- One loop iteration whose attempt fails (every host errored) stores the
synthetic unknown/temporary result and moves to the next attempt. -/
theorem verifyLoop_fail (f e : String) (mxs : List MXRecord)
    (sessions : Nat → Nat → List SmtpReply) (t fuel attempt : Nat)
    (last : Option VerificationResult)
    (ho : attemptSMTPVerification f e (attempt + 1) (sessions attempt) t mxs 0 = none) :
    verifyLoop f e mxs sessions t (fuel + 1) attempt last =
      verifyLoop f e mxs sessions t fuel (attempt + 1)
        (some (createResult e .unknown 0 (firstExchangeOr mxs "error") (attempt + 1)
          false true "All MX servers failed to respond" t)) := by
  simp only [verifyLoop, ho]

/-- Exhausted loop: the stored last verdict comes back with
`attempts = MAX_RETRIES` and the total elapsed time. -/
theorem verifyLoop_exhaust (f e : String) (mxs : List MXRecord)
    (sessions : Nat → Nat → List SmtpReply) (t attempt : Nat) (r : VerificationResult) :
    verifyLoop f e mxs sessions t 0 attempt (some r) =
      { r with attempts := MAX_RETRIES, time_taken_ms := t } := by
  simp only [verifyLoop]

/-- The retry loop returns the verdict of the first attempt with a definitive
status, untouched: earlier attempts may fail or yield non-definitive verdicts,
and nothing past that attempt is ever examined. -/
theorem verifyLoop_first_def (f e : String) (mxs : List MXRecord)
    (sessions : Nat → Nat → List SmtpReply) (t : Nat) :
    ∀ (k fuel attempt : Nat) (last : Option VerificationResult) (r : VerificationResult),
      k < fuel →
      (∀ j, attempt ≤ j → j < attempt + k → ∀ r',
        attemptSMTPVerification f e (j + 1) (sessions j) t mxs 0 = some r' →
        ¬ definitiveStatus r'.status) →
      attemptSMTPVerification f e (attempt + k + 1) (sessions (attempt + k)) t mxs 0 = some r →
      definitiveStatus r.status →
      verifyLoop f e mxs sessions t fuel attempt last = r := by
  intro k
  induction k with
  | zero =>
      intro fuel attempt last r hk _ ho hdef
      cases fuel with
      | zero => omega
      | succ fuel =>
          exact verifyLoop_exit f e mxs sessions t fuel attempt last r ho hdef
  | succ k ih =>
      intro fuel attempt last r hk hnd ho hdef
      cases fuel with
      | zero => omega
      | succ fuel =>
          have hidx : attempt + 1 + k = attempt + (k + 1) := by omega
          cases ho0 : attemptSMTPVerification f e (attempt + 1) (sessions attempt) t mxs 0 with
          | some r0 =>
              have hnd0 : ¬ definitiveStatus r0.status :=
                hnd attempt le_rfl (by omega) r0 ho0
              rw [verifyLoop_cont f e mxs sessions t fuel attempt last r0 ho0 hnd0]
              refine ih fuel (attempt + 1) (some r0) r (by omega)
                (fun j h1 h2 r' => hnd j (by omega) (by omega) r') ?_ hdef
              rw [hidx]
              exact ho
          | none =>
              rw [verifyLoop_fail f e mxs sessions t fuel attempt last ho0]
              refine ih fuel (attempt + 1) _ r (by omega)
                (fun j h1 h2 r' => hnd j (by omega) (by omega) r') ?_ hdef
              rw [hidx]
              exact ho

/-- When every remaining attempt yields a (non-definitive) verdict, the loop
returns the verdict of the final attempt with `attempts := MAX_RETRIES` and
the elapsed time. -/
theorem verifyLoop_all_nondef (f e : String) (mxs : List MXRecord)
    (sessions : Nat → Nat → List SmtpReply) (t : Nat) (rs : Nat → VerificationResult) :
    ∀ (fuel attempt : Nat) (last : Option VerificationResult),
      (∀ j, attempt ≤ j → j ≤ attempt + fuel →
        attemptSMTPVerification f e (j + 1) (sessions j) t mxs 0 = some (rs j) ∧
        ¬ definitiveStatus (rs j).status) →
      verifyLoop f e mxs sessions t (fuel + 1) attempt last =
        { rs (attempt + fuel) with attempts := MAX_RETRIES, time_taken_ms := t } := by
  intro fuel
  induction fuel with
  | zero =>
      intro attempt last hall
      have h0 := hall attempt le_rfl (by omega)
      rw [verifyLoop_cont f e mxs sessions t 0 attempt last (rs attempt) h0.1 h0.2]
      exact verifyLoop_exhaust f e mxs sessions t (attempt + 1) (rs attempt)
  | succ fuel ih =>
      intro attempt last hall
      have h0 := hall attempt le_rfl (by omega)
      rw [verifyLoop_cont f e mxs sessions t (fuel + 1) attempt last (rs attempt) h0.1 h0.2]
      have hi : attempt + 1 + fuel = attempt + (fuel + 1) := by omega
      have := ih (attempt + 1) (some (rs attempt))
        (fun j h1 h2 => hall j (by omega) (by omega))
      rw [hi] at this
      exact this

/-- With a well-formed address and a non-empty MX list, `verifyEmail` runs the
retry loop from attempt 0 with no stored result. -/
theorem verifyEmail_eq_verifyLoop (f e : String) (dnsOut : Except String (List MXRecord))
    (sessions : Nat → Nat → List SmtpReply) (t : Nat)
    (hfmt : (splitOnAtSign e).length = 2)
    (hmx : getMXRecords dnsOut ≠ []) :
    verifyEmail f e (fun _ => dnsOut) sessions t =
      verifyLoop f e (getMXRecords dnsOut) sessions t MAX_RETRIES 0 none := by
  have hdom : extractDomain e = some (jsToLowerCase ((splitOnAtSign e).getD 1 "")) := by
    simp only [extractDomain]
    rw [if_pos hfmt]
  have hlen : ¬ (getMXRecords dnsOut).length = 0 := by
    simpa [List.length_eq_zero] using hmx
  simp only [verifyEmail, hdom]
  rw [if_neg hlen]

/-- **C2.** For every verify call (well-formed address, at least one MX
record): if the first attempt index `k` whose session yields a verdict with a
definitive status (valid, invalid or catch_all) exists, that verdict is
returned exactly as produced — and the verifier never consults the session
environment of any later attempt, so no further attempt or RCPT TO happens;
whereas when all `MAX_RETRIES = 3` attempts yield non-definitive verdicts
(blocked, retry_later, greylisted or unknown), each is kept as `lastResult`
and the final one is returned with `attempts` set to `MAX_RETRIES` and the
total elapsed time. -/
theorem verifyEmail_retry_policy (f e : String) (dnsOut : Except String (List MXRecord))
    (sessions : Nat → Nat → List SmtpReply) (t : Nat)
    (hfmt : (splitOnAtSign e).length = 2)
    (hmx : getMXRecords dnsOut ≠ []) :
    (∀ k, k < MAX_RETRIES →
      (∀ j, j < k → ∀ r', attemptSMTPVerification f e (j + 1) (sessions j) t
          (getMXRecords dnsOut) 0 = some r' → ¬ definitiveStatus r'.status) →
      ∀ r, attemptSMTPVerification f e (k + 1) (sessions k) t (getMXRecords dnsOut) 0 = some r →
        definitiveStatus r.status →
        verifyEmail f e (fun _ => dnsOut) sessions t = r ∧
        (∀ sessions2 : Nat → Nat → List SmtpReply,
          (∀ j, j ≤ k → sessions2 j = sessions j) →
          verifyEmail f e (fun _ => dnsOut) sessions2 t = r))
    ∧
    (∀ r0 r1 r2,
      attemptSMTPVerification f e 1 (sessions 0) t (getMXRecords dnsOut) 0 = some r0 →
      ¬ definitiveStatus r0.status →
      attemptSMTPVerification f e 2 (sessions 1) t (getMXRecords dnsOut) 0 = some r1 →
      ¬ definitiveStatus r1.status →
      attemptSMTPVerification f e 3 (sessions 2) t (getMXRecords dnsOut) 0 = some r2 →
      ¬ definitiveStatus r2.status →
      verifyEmail f e (fun _ => dnsOut) sessions t =
        { r2 with attempts := MAX_RETRIES, time_taken_ms := t }) := by
  have hrunS : ∀ (s : Nat → Nat → List SmtpReply),
      verifyEmail f e (fun _ => dnsOut) s t =
        verifyLoop f e (getMXRecords dnsOut) s t MAX_RETRIES 0 none := fun s =>
    verifyEmail_eq_verifyLoop f e dnsOut s t hfmt hmx
  constructor
  · -- early exit at the first definitive attempt
    intro k hk hearlier r ho hdef
    have hstep : ∀ (s : Nat → Nat → List SmtpReply),
        (∀ j, j ≤ k → s j = sessions j) →
        verifyLoop f e (getMXRecords dnsOut) s t MAX_RETRIES 0 none = r := by
      intro s hs
      refine verifyLoop_first_def f e (getMXRecords dnsOut) s t k MAX_RETRIES 0 none r hk
        ?_ ?_ hdef
      · intro j h0 hj r' ho'
        rw [hs j (by omega)] at ho'
        exact hearlier j (by omega) r' ho'
      · rw [Nat.zero_add, hs k le_rfl]
        exact ho
    constructor
    · rw [hrunS sessions]
      exact hstep sessions (fun j _ => rfl)
    · intro sessions2 hs2
      rw [hrunS sessions2]
      exact hstep sessions2 hs2
  · -- exhaustion after three non-definitive verdicts
    intro r0 r1 r2 ho0 hn0 ho1 hn1 ho2 hn2
    rw [hrunS sessions]
    have hall : ∀ j, 0 ≤ j → j ≤ 0 + 2 →
        attemptSMTPVerification f e (j + 1) (sessions j) t (getMXRecords dnsOut) 0 =
          some (if j = 0 then r0 else if j = 1 then r1 else r2) ∧
        ¬ definitiveStatus (if j = 0 then r0 else if j = 1 then r1 else r2).status := by
      intro j _ hj
      interval_cases j
      · exact ⟨ho0, hn0⟩
      · exact ⟨ho1, hn1⟩
      · exact ⟨ho2, hn2⟩
    have := verifyLoop_all_nondef f e (getMXRecords dnsOut) sessions t
      (fun j => if j = 0 then r0 else if j = 1 then r1 else r2) 2 0 none hall
    simpa using this

/-- C2 witness: a session script whose RCPT TO reply is 250 produces a
definitive valid verdict on the very first attempt, returned unchanged. -/
theorem verifyEmail_retry_policy_witness :
    verifyEmail "verify@cleansignups.com" "u@t.ex"
      (fun _ => Except.ok [⟨"mx1", 10⟩])
      (fun _ _ => [⟨220, "hi"⟩, ⟨250, "ok"⟩, ⟨250, "ok"⟩, ⟨250, "ok"⟩]) 5 =
      createResult "u@t.ex" .valid 250 "mx1" 1 false false "Mailbox exists" 5 :=
  ((verifyEmail_retry_policy "verify@cleansignups.com" "u@t.ex"
      (Except.ok [⟨"mx1", 10⟩])
      (fun _ _ => [⟨220, "hi"⟩, ⟨250, "ok"⟩, ⟨250, "ok"⟩, ⟨250, "ok"⟩]) 5
      (by decide) (by decide)).1 0 (by decide)
      (fun j hj r' _ => absurd hj (Nat.not_lt_zero j))
      (createResult "u@t.ex" .valid 250 "mx1" 1 false false "Mailbox exists" 5)
      (by decide) (by decide)).1

/-- Two strings with different first characters differ. -/
theorem ne_of_head (s1 s2 : String) (c1 c2 : Char) (h1 : s1.data.head? = some c1)
    (h2 : s2.data.head? = some c2) (hc : c1 ≠ c2) : s1 ≠ s2 := by
  intro h
  rw [h, h2] at h1
  injection h1 with h1
  exact hc h1.symm

theorem EHLO_ne_HELO : EHLO_CMD ≠ HELO_CMD :=
  ne_of_head _ _ 'E' 'H' rfl rfl (by decide)

theorem mailFromCmd_ne_HELO (f : String) : mailFromCmd f ≠ HELO_CMD :=
  ne_of_head _ _ 'M' 'H' rfl rfl (by decide)

theorem rcptToCmd_ne_HELO (e : String) : rcptToCmd e ≠ HELO_CMD :=
  ne_of_head _ _ 'R' 'H' rfl rfl (by decide)

theorem QUIT_ne_HELO : QUIT_CMD ≠ HELO_CMD :=
  ne_of_head _ _ 'Q' 'H' rfl rfl (by decide)

/-- Once a session has passed the EHLO stage (states HELO, MAIL_FROM,
RCPT_TO), no further HELO command is ever written. -/
theorem handshakeSteps_helo_count_zero (f e mx : String) (a : Nat) :
    ∀ (rs : List SmtpReply) (st : SmtpStep),
      (st = .HELO ∨ st = .MAIL_FROM ∨ st = .RCPT_TO) →
      ((handshakeSteps f e mx a st rs).2.count HELO_CMD) = 0 := by
  intro rs
  induction rs with
  | nil => intro st _; simp [handshakeSteps]
  | cons hd tl ih =>
      intro st hst
      rcases hst with h | h | h <;> subst h
      · by_cases h250 : hd.code = 250
        · simp only [handshakeSteps, h250, if_true, List.count_cons]
          rw [ih .MAIL_FROM (Or.inr (Or.inl rfl))]
          simp [beq_iff_eq, mailFromCmd_ne_HELO f]
        · simp only [handshakeSteps, h250, if_false]
          simp
      · by_cases h250 : hd.code = 250
        · simp only [handshakeSteps, h250, if_true, List.count_cons]
          rw [ih .RCPT_TO (Or.inr (Or.inr rfl))]
          simp [beq_iff_eq, rcptToCmd_ne_HELO e]
        · simp only [handshakeSteps, h250, if_false]
          simp
      · rcases hcr : classifyRcpt hd.code hd.message with ⟨s, ica, ite, reason⟩
        simp only [handshakeSteps, hcr, List.count_cons]
        simp [beq_iff_eq, QUIT_ne_HELO]

/-- In any session, from any state, HELO is written at most once. -/
theorem handshakeSteps_helo_count_le_one (f e mx : String) (a : Nat) :
    ∀ (rs : List SmtpReply) (st : SmtpStep),
      ((handshakeSteps f e mx a st rs).2.count HELO_CMD) ≤ 1 := by
  intro rs
  induction rs with
  | nil => intro st; simp [handshakeSteps]
  | cons hd tl ih =>
      intro st
      cases st
      case CONNECT =>
        by_cases h220 : hd.code = 220
        · simp only [handshakeSteps, h220, if_true, List.count_cons]
          have := ih .EHLO
          simp [beq_iff_eq, EHLO_ne_HELO]
          omega
        · simp only [handshakeSteps, h220, if_false]
          simp
      case EHLO =>
        by_cases h250 : hd.code = 250
        · simp only [handshakeSteps, h250, if_true, List.count_cons]
          rw [handshakeSteps_helo_count_zero f e mx a tl .MAIL_FROM (Or.inr (Or.inl rfl))]
          simp [beq_iff_eq, mailFromCmd_ne_HELO f]
        · by_cases h50x : hd.code = 500 ∨ hd.code = 502
          · simp only [handshakeSteps, h250, if_false, h50x, if_true, List.count_cons]
            rw [handshakeSteps_helo_count_zero f e mx a tl .HELO (Or.inl rfl)]
            simp
          · simp only [handshakeSteps, h250, if_false, h50x]
            simp
      case HELO =>
        rw [handshakeSteps_helo_count_zero f e mx a (hd :: tl) .HELO (Or.inl rfl)]
        omega
      case MAIL_FROM =>
        rw [handshakeSteps_helo_count_zero f e mx a (hd :: tl) .MAIL_FROM
          (Or.inr (Or.inl rfl))]
        omega
      case RCPT_TO =>
        rw [handshakeSteps_helo_count_zero f e mx a (hd :: tl) .RCPT_TO
          (Or.inr (Or.inr rfl))]
        omega

/-- **C6.** In a session, an EHLO reply with code 500 or 502 causes exactly one
HELO fallback command to be sent; a HELO reply of 250 proceeds to MAIL FROM;
any other HELO reply code ends the session with verdict blocked and
`is_temporary_error = (400 ≤ code < 500)` — so a second 502 ends the session
with blocked, and HELO is never attempted twice (at most one HELO in any
session's command trace). -/
theorem ehlo_helo_fallback (f e mx : String) (a : Nat) (m0 : String) (r1 : SmtpReply)
    (h1 : r1.code = 500 ∨ r1.code = 502) (rest : List SmtpReply) :
    (∀ (replies : List SmtpReply) (st : SmtpStep),
      ((handshakeSteps f e mx a st replies).2.count HELO_CMD) ≤ 1)
    ∧ ((performSMTPHandshake f e mx a (⟨220, m0⟩ :: r1 :: rest)).2.count HELO_CMD = 1)
    ∧ (∀ m2 rest2, rest = ⟨250, m2⟩ :: rest2 →
        ∃ tail, (performSMTPHandshake f e mx a (⟨220, m0⟩ :: r1 :: rest)).2 =
          EHLO_CMD :: HELO_CMD :: mailFromCmd f :: tail)
    ∧ (∀ r2 rest2, rest = r2 :: rest2 → r2.code ≠ 250 →
        (performSMTPHandshake f e mx a (⟨220, m0⟩ :: r1 :: rest)).1 =
          some (createResult e .blocked r2.code mx a false
            (decide (400 ≤ r2.code ∧ r2.code < 500)) ("HELO rejected: " ++ r2.message) 0)) := by
  have h250 : ¬ r1.code = 250 := by rcases h1 with h | h <;> omega
  have hrun : handshakeSteps f e mx a .CONNECT (⟨220, m0⟩ :: r1 :: rest) =
      ((handshakeSteps f e mx a .HELO rest).1,
        EHLO_CMD :: HELO_CMD :: (handshakeSteps f e mx a .HELO rest).2) := by
    simp only [handshakeSteps, if_true]
    rw [if_neg h250, if_pos h1]
  refine ⟨handshakeSteps_helo_count_le_one f e mx a, ?_, ?_, ?_⟩
  · show (handshakeSteps f e mx a .CONNECT (⟨220, m0⟩ :: r1 :: rest)).2.count HELO_CMD = 1
    rw [hrun]
    simp only [List.count_cons,
      handshakeSteps_helo_count_zero f e mx a rest .HELO (Or.inl rfl)]
    simp [beq_iff_eq, EHLO_ne_HELO]
  · intro m2 rest2 hrest
    subst hrest
    refine ⟨(handshakeSteps f e mx a .MAIL_FROM rest2).2, ?_⟩
    show (handshakeSteps f e mx a .CONNECT _).2 = _
    rw [hrun]
    have hh : handshakeSteps f e mx a .HELO (⟨250, m2⟩ :: rest2) =
        ((handshakeSteps f e mx a .MAIL_FROM rest2).1,
          mailFromCmd f :: (handshakeSteps f e mx a .MAIL_FROM rest2).2) := by
      simp only [handshakeSteps, if_true]
    rw [hh]
  · intro r2 rest2 hrest hne
    subst hrest
    show (handshakeSteps f e mx a .CONNECT _).1 = _
    rw [hrun]
    simp only [handshakeSteps]
    rw [if_neg hne]

/-- C6 witness: EHLO answered 502 triggers exactly one HELO; a second 502 ends
the session blocked with a non-temporary flag. -/
theorem ehlo_helo_fallback_witness :
    ((performSMTPHandshake "verify@cleansignups.com" "u@t.ex" "mx1" 1
        [⟨220, "hi"⟩, ⟨502, "no"⟩, ⟨502, "no"⟩]).2.count HELO_CMD = 1) ∧
    ((performSMTPHandshake "verify@cleansignups.com" "u@t.ex" "mx1" 1
        [⟨220, "hi"⟩, ⟨502, "no"⟩, ⟨502, "no"⟩]).1 =
      some (createResult "u@t.ex" .blocked 502 "mx1" 1 false false
        "HELO rejected: no" 0)) := by
  have h := ehlo_helo_fallback "verify@cleansignups.com" "u@t.ex" "mx1" 1 "hi"
    ⟨502, "no"⟩ (Or.inr rfl) [⟨502, "no"⟩]
  refine ⟨h.2.1, ?_⟩
  have h4 := h.2.2.2 ⟨502, "no"⟩ [] rfl (by decide)
  rw [h4]
  decide

/-- **C7.** When MX resolution fails it yields the empty list rather than
raising, and a verify call on a well-formed address whose resolution is empty
returns a Result with status invalid, smtp_code 550, mx_server "No MX" and
attempts 1 — for every session environment alike, so no retry is performed
and no connection is opened. -/
theorem noMX_invalid (f email : String) (dnsOut : Except String (List MXRecord))
    (sessions : Nat → Nat → List SmtpReply) (t : Nat)
    (hfmt : (splitOnAtSign email).length = 2)
    (hempty : getMXRecords dnsOut = []) :
    (∀ msg, getMXRecords (Except.error msg) = []) ∧
    verifyEmail f email (fun _ => dnsOut) sessions t =
      createResult email .invalid 550 "No MX" 1 false false
        "No MX records found for domain" t := by
  refine ⟨fun msg => rfl, ?_⟩
  have hdom : extractDomain email =
      some (jsToLowerCase ((splitOnAtSign email).getD 1 "")) := by
    simp only [extractDomain]
    rw [if_pos hfmt]
  simp only [verifyEmail, hdom]
  rw [if_pos (by rw [hempty]; rfl)]

/-- C7 witness: a failed lookup yields the No-MX invalid verdict on one
attempt, whatever the session environment would have answered. -/
theorem noMX_invalid_witness :
    verifyEmail "verify@cleansignups.com" "a@b" (fun _ => Except.error "lookup failed")
      (fun _ _ => [⟨220, "hi"⟩]) 7 =
      createResult "a@b" .invalid 550 "No MX" 1 false false
        "No MX records found for domain" 7 :=
  (noMX_invalid "verify@cleansignups.com" "a@b" (Except.error "lookup failed")
    (fun _ _ => [⟨220, "hi"⟩]) 7 (by decide) rfl).2

/-- **C8.** verify is total: the embedding is a total function into
`VerificationResult`; in particular, for every input string that does not
split on '@' into exactly two parts the thrown format error is caught and
verify returns unknown/0/"error"/attempts 1/reason "Invalid email format". -/
theorem invalid_format_result (f email : String)
    (dns : String → Except String (List MXRecord))
    (sessions : Nat → Nat → List SmtpReply) (t : Nat)
    (hfmt : (splitOnAtSign email).length ≠ 2) :
    verifyEmail f email dns sessions t =
      createResult email .unknown 0 "error" 1 false false "Invalid email format" t := by
  have hdom : extractDomain email = none := by
    simp only [extractDomain]
    rw [if_neg hfmt]
  simp only [verifyEmail, hdom]

/-- C8 witness: an address without '@' (and one with two of them) both give
the Invalid-email-format unknown result. -/
theorem invalid_format_result_witness :
    verifyEmail "verify@cleansignups.com" "noatsign"
      (fun _ => Except.error "never") (fun _ _ => []) 9 =
      createResult "noatsign" .unknown 0 "error" 1 false false "Invalid email format" 9 ∧
    verifyEmail "verify@cleansignups.com" "a@b@c"
      (fun _ => Except.error "never") (fun _ _ => []) 9 =
      createResult "a@b@c" .unknown 0 "error" 1 false false "Invalid email format" 9 :=
  ⟨invalid_format_result "verify@cleansignups.com" "noatsign" (fun _ => Except.error "never")
      (fun _ _ => []) 9 (by decide),
    invalid_format_result "verify@cleansignups.com" "a@b@c" (fun _ => Except.error "never")
      (fun _ _ => []) 9 (by decide)⟩

/-- Every command a session writes is one of EHLO, HELO, MAIL FROM with the
configured sender, RCPT TO with the recipient address verbatim, or QUIT. -/
theorem handshakeSteps_cmds (f e mx : String) (a : Nat) :
    ∀ (rs : List SmtpReply) (st : SmtpStep) (cmd : String),
      cmd ∈ (handshakeSteps f e mx a st rs).2 →
      cmd = EHLO_CMD ∨ cmd = HELO_CMD ∨ cmd = mailFromCmd f ∨ cmd = QUIT_CMD ∨
      cmd = rcptToCmd e := by
  intro rs
  induction rs with
  | nil => intro st cmd h; simp [handshakeSteps] at h
  | cons hd tl ih =>
      intro st cmd h
      cases st
      case CONNECT =>
        by_cases h220 : hd.code = 220
        · simp only [handshakeSteps, h220, if_true, List.mem_cons] at h
          rcases h with h | h
          · exact Or.inl h
          · exact ih .EHLO cmd h
        · simp only [handshakeSteps, h220, if_false] at h
          simp at h
      case EHLO =>
        by_cases h250 : hd.code = 250
        · simp only [handshakeSteps, h250, if_true, List.mem_cons] at h
          rcases h with h | h
          · exact Or.inr (Or.inr (Or.inl h))
          · exact ih .MAIL_FROM cmd h
        · by_cases h50x : hd.code = 500 ∨ hd.code = 502
          · simp only [handshakeSteps, h250, if_false, h50x, if_true, List.mem_cons] at h
            rcases h with h | h
            · exact Or.inr (Or.inl h)
            · exact ih .HELO cmd h
          · simp only [handshakeSteps, h250, if_false, h50x] at h
            simp at h
      case HELO =>
        by_cases h250 : hd.code = 250
        · simp only [handshakeSteps, h250, if_true, List.mem_cons] at h
          rcases h with h | h
          · exact Or.inr (Or.inr (Or.inl h))
          · exact ih .MAIL_FROM cmd h
        · simp only [handshakeSteps, h250, if_false] at h
          simp at h
      case MAIL_FROM =>
        by_cases h250 : hd.code = 250
        · simp only [handshakeSteps, h250, if_true, List.mem_cons] at h
          rcases h with h | h
          · exact Or.inr (Or.inr (Or.inr (Or.inr h)))
          · exact ih .RCPT_TO cmd h
        · simp only [handshakeSteps, h250, if_false] at h
          simp at h
      case RCPT_TO =>
        rcases hcr : classifyRcpt hd.code hd.message with ⟨s, ica, ite, reason⟩
        simp only [handshakeSteps, hcr] at h
        simp only [List.mem_singleton] at h
        exact Or.inr (Or.inr (Or.inr (Or.inl h)))

/-- **C10.** For every accepted input (splitting on '@' into exactly two
parts): only the domain handed to MX resolution is lowercased; every RCPT TO
command any session writes carries the caller's email string verbatim, with
its original case; and the returned Result's email field echoes that same
unmodified string. -/
theorem lowercase_domain_only (f email : String)
    (dns : String → Except String (List MXRecord))
    (sessions : Nat → Nat → List SmtpReply) (t : Nat)
    (hfmt : (splitOnAtSign email).length = 2) :
    extractDomain email = some (jsToLowerCase ((splitOnAtSign email).getD 1 "")) ∧
    (∀ (mxServer : String) (a : Nat) (replies : List SmtpReply) (cmd : String),
      cmd ∈ (performSMTPHandshake f email mxServer a replies).2 →
      cmd = EHLO_CMD ∨ cmd = HELO_CMD ∨ cmd = mailFromCmd f ∨ cmd = QUIT_CMD ∨
      cmd = "RCPT TO:<" ++ email ++ ">\r\n") ∧
    (verifyEmail f email dns sessions t).email = email := by
  refine ⟨?_, ?_, (verifyEmail_ok f email dns sessions t).1⟩
  · simp only [extractDomain]
    rw [if_pos hfmt]
  · intro mxServer a replies cmd hcmd
    exact handshakeSteps_cmds f email mxServer a replies .CONNECT cmd hcmd

/-- C10 witness: a mixed-case address has only its domain lowercased for
resolution while the Result echoes it verbatim. -/
theorem lowercase_domain_only_witness :
    extractDomain "User@ExAmple.COM" = some "example.com" ∧
    (verifyEmail "verify@cleansignups.com" "User@ExAmple.COM"
      (fun _ => Except.error "nx") (fun _ _ => []) 3).email = "User@ExAmple.COM" := by
  have h := lowercase_domain_only "verify@cleansignups.com" "User@ExAmple.COM"
    (fun _ => Except.error "nx") (fun _ _ => []) 3 (by decide)
  refine ⟨?_, h.2.2⟩
  rw [h.1]
  decide

/-- **C9.** For every attempt number n with 2 ≤ n ≤ maxAttempts, the sleep
before attempt n (loop index n−1) is `round(addJitter(backoff[n−2]))` where
`backoff = [1000, 3000, 10000]` ms and `addJitter(d) = d × (1 + v)` for
`v = 0.3 × (2u − 1)` with u the uniform `Math.random()` draw in [0, 1) — so
`v ∈ [−0.3, +0.3)` and the rounded sleep lies in `[0.7, 1.3] × backoff[n−2]`;
and no delay precedes the first attempt. -/
theorem retry_backoff_jitter (n : Nat) (u : ℚ) (h2 : 2 ≤ n) (h3 : n ≤ MAX_RETRIES)
    (hu0 : 0 ≤ u) (hu1 : u < 1) :
    retrySleep 0 u = none ∧
    ∃ b v, b = RETRY_DELAYS.getD (n - 2) 0 ∧
      b = [(1000 : ℚ), 3000, 10000].getD (n - 2) 0 ∧
      addJitter b u = b * (1 + v) ∧ -(3/10) ≤ v ∧ v < 3/10 ∧
      retrySleep (n - 1) u = some (jsRound (addJitter b u)) ∧
      (7/10) * b ≤ (jsRound (addJitter b u) : ℚ) ∧
      (jsRound (addJitter b u) : ℚ) ≤ (13/10) * b := by
  refine ⟨by simp [retrySleep], ?_⟩
  have h3' : n ≤ 3 := h3
  set v : ℚ := (3/10) * (2*u - 1) with hv
  have hvlo : -(3/10) ≤ v := by rw [hv]; linarith
  have hvhi : v < 3/10 := by rw [hv]; linarith
  interval_cases n
  · refine ⟨1000, v, by norm_num [RETRY_DELAYS], by norm_num, ?_, hvlo, hvhi, ?_, ?_, ?_⟩
    · simp only [addJitter, hv]; ring
    · show retrySleep 1 u = _
      simp [retrySleep, RETRY_DELAYS]
    · have hx : addJitter 1000 u = 700 + 600 * u := by simp only [addJitter]; ring
      have hlow : (700 : ℤ) ≤ jsRound (addJitter 1000 u) := by
        rw [jsRound, Int.le_floor, hx]
        push_cast
        linarith
      have : ((700 : ℤ) : ℚ) ≤ (jsRound (addJitter 1000 u) : ℚ) := by exact_mod_cast hlow
      calc (7/10 : ℚ) * 1000 = ((700 : ℤ) : ℚ) := by norm_num
        _ ≤ _ := this
    · have hx : addJitter 1000 u = 700 + 600 * u := by simp only [addJitter]; ring
      have hhi : jsRound (addJitter 1000 u) < 1301 := by
        rw [jsRound, Int.floor_lt, hx]
        push_cast
        linarith
      have hle : jsRound (addJitter 1000 u) ≤ 1300 := by omega
      have : (jsRound (addJitter 1000 u) : ℚ) ≤ ((1300 : ℤ) : ℚ) := by exact_mod_cast hle
      calc (jsRound (addJitter 1000 u) : ℚ) ≤ ((1300 : ℤ) : ℚ) := this
        _ = (13/10 : ℚ) * 1000 := by norm_num
  · refine ⟨3000, v, by norm_num [RETRY_DELAYS], by norm_num, ?_, hvlo, hvhi, ?_, ?_, ?_⟩
    · simp only [addJitter, hv]; ring
    · show retrySleep 2 u = _
      simp [retrySleep, RETRY_DELAYS]
    · have hx : addJitter 3000 u = 2100 + 1800 * u := by simp only [addJitter]; ring
      have hlow : (2100 : ℤ) ≤ jsRound (addJitter 3000 u) := by
        rw [jsRound, Int.le_floor, hx]
        push_cast
        linarith
      have : ((2100 : ℤ) : ℚ) ≤ (jsRound (addJitter 3000 u) : ℚ) := by exact_mod_cast hlow
      calc (7/10 : ℚ) * 3000 = ((2100 : ℤ) : ℚ) := by norm_num
        _ ≤ _ := this
    · have hx : addJitter 3000 u = 2100 + 1800 * u := by simp only [addJitter]; ring
      have hhi : jsRound (addJitter 3000 u) < 3901 := by
        rw [jsRound, Int.floor_lt, hx]
        push_cast
        linarith
      have hle : jsRound (addJitter 3000 u) ≤ 3900 := by omega
      have : (jsRound (addJitter 3000 u) : ℚ) ≤ ((3900 : ℤ) : ℚ) := by exact_mod_cast hle
      calc (jsRound (addJitter 3000 u) : ℚ) ≤ ((3900 : ℤ) : ℚ) := this
        _ = (13/10 : ℚ) * 3000 := by norm_num

/-- C9 witness: at attempt 2 with the draw u = 1/2, the sleep is exactly
1000 ms (the jitter term vanishes at the midpoint), within [700, 1300]. -/
theorem retry_backoff_jitter_witness :
    retrySleep 0 (1/2 : ℚ) = none ∧
    ∃ b v, b = RETRY_DELAYS.getD (2 - 2) 0 ∧
      b = [(1000 : ℚ), 3000, 10000].getD (2 - 2) 0 ∧
      addJitter b (1/2) = b * (1 + v) ∧ -(3/10) ≤ v ∧ v < 3/10 ∧
      retrySleep (2 - 1) (1/2) = some (jsRound (addJitter b (1/2))) ∧
      (7/10) * b ≤ (jsRound (addJitter b (1/2)) : ℚ) ∧
      (jsRound (addJitter b (1/2)) : ℚ) ≤ (13/10) * b :=
  retry_backoff_jitter 2 (1/2) (by norm_num) (by decide) (by norm_num) (by norm_num)

end SmtpVerification
